import Mathlib

/-!
Shallow embedding of `src/cloudwatch.runbook.py` (a bash runbook that
fetches CloudWatch log events for a resolved time window, pages through
the `filter-log-events` API and renders each event).

The embedding follows the bash source line by line:
* `window_to_seconds`   — lines 69–81
* `month_to_number`     — lines 83–99
* `extract_message`     — lines 101–119 (jq is modelled by a small JSON
  value type, a JSON parser and the output convention of `jq -r`)
* `resolveWindow`       — the window-resolution part of `main`, lines 122–162
* `fetchLoop`           — the pagination loop of `main`, lines 175–203
-/

namespace Runbook

/-- Character code of a left curly brace (avoids brace literals). -/
def lbrace : Char := Char.ofNat 123

/-- Character code of a right curly brace (avoids brace literals). -/
def rbrace : Char := Char.ofNat 125

/-- Decimal value of a list of digit characters; the empty list gives `0`,
matching bash arithmetic on an empty variable (`$((num * 60))` with
`num=""` evaluates `num` as `0`). -/
def natOfDigits (cs : List Char) : Nat :=
  cs.foldl (fun a c => a * 10 + (c.toNat - 48)) 0

/-- `sed 's/[^0-9]//g'` — keep only the digit characters (line 71). -/
def digitsOf (s : String) : List Char := s.toList.filter Char.isDigit

/-- `sed 's/[0-9]//g'` — delete the digit characters (line 72). -/
def nonDigitsOf (s : String) : List Char := s.toList.filter (fun c => !c.isDigit)

/-- Lines 69–81.  `window_to_seconds` splits the token into its digit part
`num` and its non-digit part `unit` and dispatches on the unit; any unit
other than `m`/`h`/`d`/`w` prints an error and exits with status 1, which
the embedding models as `none`. -/
def window_to_seconds (win : String) : Option Nat :=
  let num := natOfDigits (digitsOf win)
  match String.mk (nonDigitsOf win) with
  | "m" => some (num * 60)
  | "h" => some (num * 3600)
  | "d" => some (num * 86400)
  | "w" => some (num * 604800)
  | _ => none

/-- `tr '[:upper:]' '[:lower:]'` in the C locale: lower-case the ASCII
letters A–Z (codes 65–90) and leave every other character alone. -/
def lowerAscii (s : String) : String :=
  String.mk (s.toList.map (fun c =>
    if 65 ≤ c.toNat && c.toNat ≤ 90 then Char.ofNat (c.toNat + 32) else c))

/-- Lines 83–99.  `month_to_number` lower-cases its argument
(`tr '[:upper:]' '[:lower:]'`) and maps full English month names to 1–12;
every other string falls through to `0`. -/
def month_to_number (s : String) : Nat :=
  match lowerAscii s with
  | "january" => 1
  | "february" => 2
  | "march" => 3
  | "april" => 4
  | "may" => 5
  | "june" => 6
  | "july" => 7
  | "august" => 8
  | "september" => 9
  | "october" => 10
  | "november" => 11
  | "december" => 12
  | _ => 0

/-- The 21 window tokens offered by the `relativeWindow` select (lines 18–26). -/
def supportedWindows : List String :=
  ["5m", "10m", "15m", "30m", "45m",
   "1h", "2h", "3h", "6h", "8h", "12h",
   "1d", "2d", "3d", "4d", "5d", "6d",
   "1w", "2w", "3w", "4w"]

/-- Gregorian leap-year rule. -/
def isLeap (y : Nat) : Bool :=
  (y % 4 == 0 && y % 100 != 0) || y % 400 == 0

/-- Number of days in month `m` of year `y` (0 for an out-of-range month). -/
def daysInMonth (y m : Nat) : Nat :=
  match m with
  | 1 => 31
  | 2 => if isLeap y then 29 else 28
  | 3 => 31
  | 4 => 30
  | 5 => 31
  | 6 => 30
  | 7 => 31
  | 8 => 31
  | 9 => 30
  | 10 => 31
  | 11 => 30
  | 12 => 31
  | _ => 0

/-- Days since 1970-01-01 of the civil date `y-m-d` (proleptic Gregorian,
the standard days-from-civil algorithm); meaningful for `1 ≤ y`,
`1 ≤ m ≤ 12`. -/
def daysFromCivil (y m d : Nat) : Int :=
  let yy := if m ≤ 2 then y - 1 else y
  let era := yy / 400
  let yoe := yy % 400
  let mp := if 2 < m then m - 3 else m + 9
  let doy := (153 * mp + 2) / 5 + d - 1
  let doe := yoe * 365 + yoe / 4 - yoe / 100 + doy
  (era * 146097 + doe : Int) - 719468

/-- Whether `y-m-d` is a real calendar date (GNU `date -d` rejects
dates such as month `00` or February 31). -/
def validDate (y m d : Nat) : Bool :=
  1 ≤ m && m ≤ 12 && 1 ≤ d && d ≤ daysInMonth y m

/-- Epoch second of `y-m-d 00:00:00` UTC as produced by `date -d`, or
`none` when `date` rejects the date string (the script silences the error
and is left with an empty `end_ms`; the embedding models that failed
resolution as `none`). -/
def dayStartEpoch (y m d : Nat) : Option Int :=
  if validDate y m d then some (daysFromCivil y m d * 86400) else none

/-- Line 134–138: the month passed into date construction — the parsed
month name when a specific month is selected, otherwise the current
month. No validation is performed on the parsed value. -/
def selectMonth (sm : String) (curM : Nat) : Nat :=
  if sm ≠ "current" then month_to_number sm else curM

/-- Line 140–144: the day passed into date construction — the selected
day string read as a decimal number, otherwise the current day. -/
def selectDay (sd : String) (curD : Nat) : Nat :=
  if sd ≠ "current" then natOfDigits (digitsOf sd) else curD

/-- Lines 122–162 of `main`: resolve `(start_ms, end_ms)`.

Arguments: the three UI parameters, `nowSec = date +%s`, and the current
year/month/day as read from the clock.  In specific-date mode the end
instant is `date -d "Y-M-D 23:59:59" +%s000`, i.e. the epoch second of
23:59:59 on the chosen day with three literal zeros appended (so the
millisecond part is `000`), clamped to `now` when it lies in the future
(lines 151–153); `start_ms = end_ms - window_seconds * 1000` (line 162).
A failed duration parse or a rejected date string yields `none`. -/
def resolveWindow (rw sm sd : String) (nowSec curY curM curD : Nat) :
    Option (Int × Int) :=
  (window_to_seconds rw).bind (fun w =>
    let now_ms : Int := (nowSec : Int) * 1000
    if sm ≠ "current" ∨ sd ≠ "current" then
      (dayStartEpoch curY (selectMonth sm curM) (selectDay sd curD)).bind
        (fun ds =>
          let end0 : Int := (ds + 86399) * 1000
          let end_ms : Int := if end0 > now_ms then now_ms else end0
          some (end_ms - (w : Int) * 1000, end_ms))
    else
      some (now_ms - (w : Int) * 1000, now_ms))

/-- C2 counterexample: the claim says any token not of the form
`<integer><unit-letter>` fails, but the two sed passes extract the digit
and non-digit characters independently of their order, so the scrambled
token `"m5"` parses to 300 seconds instead of failing. -/
theorem window_to_seconds_order_counterexample :
    window_to_seconds "m5" = some 300 ∧ window_to_seconds "m5" ≠ none := by
  decide

/-- C2 (amended): duration parsing depends only on the digit characters
and the non-digit characters of the token, regardless of their order.
When the non-digit characters form exactly one of the unit letters, the
result is the digit value times the unit seconds (`m`=60, `h`=3600,
`d`=86400, `w`=604800); when they form anything else — no letter, a
non-unit letter such as in `"5x"`, or several characters — the script
prints `Unsupported window` and exits 1 (the spec's `InvalidWindowError`,
modelled as `none`).  In particular `"5m"`→300, `"3h"`→10800,
`"2d"`→172800, `"4w"`→2419200, and also the scrambled `"m5"`→300. -/
theorem window_to_seconds_corrected :
    (∀ (win : String) (u : Char), nonDigitsOf win = [u] →
      window_to_seconds win =
        if u = 'm' then some (natOfDigits (digitsOf win) * 60)
        else if u = 'h' then some (natOfDigits (digitsOf win) * 3600)
        else if u = 'd' then some (natOfDigits (digitsOf win) * 86400)
        else if u = 'w' then some (natOfDigits (digitsOf win) * 604800)
        else none) ∧
    (∀ win : String, nonDigitsOf win = [] → window_to_seconds win = none) ∧
    (∀ (win : String) (c1 c2 : Char) (rest : List Char),
      nonDigitsOf win = c1 :: c2 :: rest → window_to_seconds win = none) ∧
    window_to_seconds "5m" = some 300 ∧
    window_to_seconds "3h" = some 10800 ∧
    window_to_seconds "2d" = some 172800 ∧
    window_to_seconds "4w" = some 2419200 ∧
    window_to_seconds "m5" = some 300 ∧
    window_to_seconds "5x" = none := by
  refine ⟨?_, ?_, ?_, by decide, by decide, by decide, by decide, by decide,
    by decide⟩
  · intro win u hn
    simp only [window_to_seconds, hn]
    split
    · rename_i heq
      have hu : u = 'm' := by
        have := congrArg String.data heq
        simpa using this
      simp [hu]
    · rename_i heq
      have hu : u = 'h' := by
        have := congrArg String.data heq
        simpa using this
      simp [hu]
    · rename_i heq
      have hu : u = 'd' := by
        have := congrArg String.data heq
        simpa using this
      simp [hu]
    · rename_i heq
      have hu : u = 'w' := by
        have := congrArg String.data heq
        simpa using this
      simp [hu]
    · rename_i hne1 hne2 hne3 hne4
      have h1 : u ≠ 'm' := fun h => hne1 (by rw [h])
      have h2 : u ≠ 'h' := fun h => hne2 (by rw [h])
      have h3 : u ≠ 'd' := fun h => hne3 (by rw [h])
      have h4 : u ≠ 'w' := fun h => hne4 (by rw [h])
      simp [h1, h2, h3, h4]
  · intro win hn
    simp only [window_to_seconds, hn]
    rfl
  · intro win c1 c2 rest hn
    simp only [window_to_seconds, hn]
    split
    · rename_i heq
      have := congrArg String.data heq
      simp at this
    · rename_i heq
      have := congrArg String.data heq
      simp at this
    · rename_i heq
      have := congrArg String.data heq
      simp at this
    · rename_i heq
      have := congrArg String.data heq
      simp at this
    · rfl

/-- C2 witness: the general characterisation applied to `"45m"` — the
sole non-digit character is `m`, so the token parses to 45 × 60 = 2700
seconds. -/
theorem window_to_seconds_corrected_witness :
    window_to_seconds "45m" = some 2700 := by
  have h := window_to_seconds_corrected.1 "45m" 'm' (by decide)
  rw [h]
  decide

/-- Helper: whenever the resolver succeeds, the start is the end minus the
window length in milliseconds (line 162 runs after any clamping). -/
theorem resolveWindow_start (rw sm sd : String) (n y mo d : Nat) (w : Nat)
    (s e : Int) (hw : window_to_seconds rw = some w)
    (h : resolveWindow rw sm sd n y mo d = some (s, e)) :
    s = e - (w : Int) * 1000 := by
  unfold resolveWindow at h
  simp only [hw, Option.some_bind] at h
  by_cases hmode : sm ≠ "current" ∨ sd ≠ "current"
  · rw [if_pos hmode] at h
    cases hds : dayStartEpoch y (selectMonth sm mo) (selectDay sd d) with
    | none => rw [hds, Option.none_bind] at h; simp at h
    | some ds =>
      rw [hds, Option.some_bind] at h
      simp only [Option.some.injEq, Prod.mk.injEq] at h
      obtain ⟨h1, h2⟩ := h
      by_cases hc : (ds + 86399) * 1000 > (n : Int) * 1000
      · rw [if_pos hc] at h1 h2; omega
      · rw [if_neg hc] at h1 h2; omega
  · rw [if_neg hmode] at h
    simp only [Option.some.injEq, Prod.mk.injEq] at h
    obtain ⟨h1, h2⟩ := h
    omega

/-- Helper: the resolver only succeeds when the duration token parses. -/
theorem resolveWindow_parses (rw sm sd : String) (n y mo d : Nat)
    (s e : Int) (h : resolveWindow rw sm sd n y mo d = some (s, e)) :
    ∃ w, window_to_seconds rw = some w := by
  cases hpw : window_to_seconds rw with
  | none =>
    unfold resolveWindow at h
    rw [hpw, Option.none_bind] at h
    simp at h
  | some w => exact ⟨w, rfl⟩

/-- C7: in pure relative mode (both selectors left at `"current"`), the
window ends at the current time and starts `duration` earlier:
`(now - w·1000, now·1000)` for any parsed duration `w`. -/
theorem relative_mode_window (rw : String) (w n y mo d : Nat)
    (hw : window_to_seconds rw = some w) :
    resolveWindow rw "current" "current" n y mo d =
      some ((n : Int) * 1000 - (w : Int) * 1000, (n : Int) * 1000) := by
  unfold resolveWindow
  simp [hw]

/-- C7 witness: with now fixed at 2024-06-15T12:00:00Z (epoch second
1718452800) and window `"30m"`, the resolved window is
[2024-06-15T11:30:00Z, 2024-06-15T12:00:00Z) in epoch milliseconds. -/
theorem relative_mode_window_witness :
    resolveWindow "30m" "current" "current" 1718452800 2024 6 15 =
      some (1718451000000, 1718452800000) := by
  rw [relative_mode_window "30m" 1800 1718452800 2024 6 15 (by decide)]
  decide

/-- C5: for every window the resolver produces from a supported window
token (any month/day selection, any current time), `start_ms < end_ms`. -/
theorem resolved_window_start_lt_end (rw sm sd : String) (n y mo d : Nat)
    (s e : Int) (hmem : rw ∈ supportedWindows)
    (h : resolveWindow rw sm sd n y mo d = some (s, e)) : s < e := by
  obtain ⟨w, hw⟩ := resolveWindow_parses rw sm sd n y mo d s e h
  have hall : supportedWindows.all
      (fun t => decide (0 < (window_to_seconds t).getD 0)) = true := by decide
  have hpos' := List.all_eq_true.mp hall rw hmem
  rw [hw] at hpos'
  have hpos : 0 < w := by simpa using hpos'
  have hs := resolveWindow_start rw sm sd n y mo d w s e hw h
  omega

/-- C5 witness: resolving `"5m"` relative to 2024-06-15T12:00:00Z yields a
window whose start precedes its end. -/
theorem resolved_window_start_lt_end_witness :
    (1718452500000 : Int) < 1718452800000 :=
  resolved_window_start_lt_end "5m" "current" "current" 1718452800 2024 6 15
    1718452500000 1718452800000 (by decide) (by decide)

/-- C9: whenever the resolver succeeds, the window length `end - start`
equals exactly the parsed duration in milliseconds — also in specific-day
mode with the end clamped to now, because the start is computed from the
already-clamped end. -/
theorem window_length_exact (rw sm sd : String) (n y mo d : Nat) (w : Nat)
    (s e : Int) (hw : window_to_seconds rw = some w)
    (h : resolveWindow rw sm sd n y mo d = some (s, e)) :
    e - s = (w : Int) * 1000 := by
  have hs := resolveWindow_start rw sm sd n y mo d w s e hw h
  omega

/-- C9 witness: day 20 selected while now is 2024-06-15T12:00:00Z, so the
end-of-day instant is in the future and the end is clamped to now; the
window length is still exactly 300·1000 ms. -/
theorem window_length_exact_witness :
    (1718452800000 : Int) - 1718452500000 = ((300 : Nat) : Int) * 1000 :=
  window_length_exact "5m" "current" "20" 1718452800 2024 6 15 300
    1718452500000 1718452800000 (by decide) (by decide)

/-- C3 (amended): in specific-date mode the resolver's end instant is the
epoch second of 23:59:59 on the resolved day with millisecond part `000`
(the script appends three literal zeros: `+%s000`), clamped to now when
in the future, and the start is the clamped end minus the duration in
milliseconds.  The conjunct `(ds+86399)·1000 % 86400000 = 86399000` says
the unclamped end falls at millisecond 86 399 000 of its day, i.e. at
23:59:59.000 — not 23:59:59.999. -/
theorem specific_day_end_clamp (rw sm sd : String) (n y mo d : Nat)
    (w : Nat) (s e : Int) (hw : window_to_seconds rw = some w)
    (hmode : sm ≠ "current" ∨ sd ≠ "current")
    (h : resolveWindow rw sm sd n y mo d = some (s, e)) :
    ∃ ds, dayStartEpoch y (selectMonth sm mo) (selectDay sd d) = some ds ∧
      e = min ((ds + 86399) * 1000) ((n : Int) * 1000) ∧
      ((ds + 86399) * 1000) % 86400000 = 86399000 ∧
      s = e - (w : Int) * 1000 := by
  unfold resolveWindow at h
  simp only [hw, Option.some_bind] at h
  rw [if_pos hmode] at h
  cases hds : dayStartEpoch y (selectMonth sm mo) (selectDay sd d) with
  | none => rw [hds, Option.none_bind] at h; simp at h
  | some ds =>
    rw [hds, Option.some_bind] at h
    simp only [Option.some.injEq, Prod.mk.injEq] at h
    obtain ⟨h1, h2⟩ := h
    have hmul : ∃ k : Int, ds = k * 86400 := by
      unfold dayStartEpoch at hds
      split at hds
      · exact ⟨daysFromCivil y (selectMonth sm mo) (selectDay sd d),
          by simpa using hds.symm⟩
      · exact absurd hds (by simp)
    obtain ⟨k, hk⟩ := hmul
    have hmod : ((ds + 86399) * 1000) % 86400000 = 86399000 := by
      have hlin : (ds + 86399) * 1000 = k * 86400000 + 86399000 := by
        rw [hk]; ring
      omega
    refine ⟨ds, rfl, ?_, hmod, ?_⟩
    · by_cases hgt : (ds + 86399) * 1000 > (n : Int) * 1000
      · rw [if_pos hgt] at h2
        omega
      · rw [if_neg hgt] at h2
        omega
    · by_cases hgt : (ds + 86399) * 1000 > (n : Int) * 1000
      · rw [if_pos hgt] at h1 h2; omega
      · rw [if_neg hgt] at h1 h2; omega

/-- C3 amended witness: window `"5m"`, day 10 selected, now
2024-06-15T12:00:00Z.  The day-start epoch of 2024-06-10 is 1717977600,
the end instant (1717977600+86399)·1000 = 1718063999000 is in the past so
it is not clamped, and the start is 300 000 ms earlier. -/
theorem specific_day_end_clamp_witness :
    ∃ ds, dayStartEpoch 2024 (selectMonth "current" 6) (selectDay "10" 15) =
        some ds ∧
      (1718063999000 : Int) = min ((ds + 86399) * 1000)
        (((1718452800 : Nat) : Int) * 1000) ∧
      ((ds + 86399) * 1000) % 86400000 = 86399000 ∧
      (1718063699000 : Int) = 1718063999000 - ((300 : Nat) : Int) * 1000 :=
  specific_day_end_clamp "5m" "current" "10" 1718452800 2024 6 15 300
    1718063699000 1718063999000 (by decide) (by decide) (by decide)

/-- C3 counterexample: with day 10 selected and now 2024-06-15T12:00:00Z,
the code resolves the end to 1 718 063 999 000 ms — 23:59:59.000 UTC on
2024-06-10 (millisecond-of-day 86 399 000) — and not to the
23:59:59.999 instant 1 718 063 999 999 that the claim states. -/
theorem specific_day_end_ms_counterexample :
    resolveWindow "5m" "current" "10" 1718452800 2024 6 15 =
      some (1718063699000, 1718063999000) ∧
    (1718063999000 : Int) % 86400000 = 86399000 ∧
    (1718063999000 : Int) ≠ 1718063999999 := by
  decide

/-- C6: month-name parsing is case-insensitive (`January`/`january`/
`JANUARY` all map to 1), but an unrecognized name such as `"Smarch"` maps
to `0`, and `main` performs no validation: `selectMonth` forwards the `0`
straight into date construction, where `date -d "2024-00-10 23:59:59"`
fails with its stderr silenced (modelled as a `none` resolution) — the
rejection the spec requires before date construction never happens. -/
theorem month_to_number_smarch_flow :
    month_to_number "January" = 1 ∧ month_to_number "january" = 1 ∧
    month_to_number "JANUARY" = 1 ∧ month_to_number "Smarch" = 0 ∧
    (∀ cm : Nat, selectMonth "Smarch" cm = 0) ∧
    resolveWindow "5m" "Smarch" "10" 1718452800 2024 6 15 = none := by
  refine ⟨by decide, by decide, by decide, by decide, ?_, by decide⟩
  intro cm
  unfold selectMonth
  rw [if_pos (by decide)]
  decide

/-- One response page of `aws logs filter-log-events`: a list of events
and the `nextToken` field as read by `jq -r '.nextToken // empty'`
(line 198) — the empty string when the token is absent or null. -/
structure Page where
  events : List String
  nextToken : String
deriving DecidableEq

/-- Outcome of the fetch loop (lines 175–205): `ok requests total` models
reaching the `✅ $total_events event(s) retrieved` line with process exit
status 0; `fail requests` models the error branch (lines 184–188) that
would print an error and run `exit 1`.  That branch is dead code: line
182 assigns with `local response=$(eval $cmd 2>/dev/null)`, so the `$?`
tested on line 184 is the exit status of the `local` builtin (always 0),
never that of the aws call — see `fetch_failure_swallowed`.  `requests`
lists the `--next-token` value carried by each issued request in order,
the empty string standing for a request with no token attached
(lines 172, 178–180). -/
inductive FetchOutcome where
  | ok : List String → Nat → FetchOutcome
  | fail : List String → FetchOutcome
deriving DecidableEq

/-- Lines 175–203: the pagination loop.  `svc` is the external service:
`svc tok` is the parsed response to a request carrying token `tok`, or
`none` when the aws call exits non-zero and emits nothing on stdout.
Each iteration issues one request.  Because `local` masks the aws exit
status (line 182), a failed call is not detected: `response` is empty,
`jq` over empty input emits nothing, the batch count is empty (adding 0),
`nextToken` is empty, and the loop breaks into the success summary — the
failure is swallowed as an empty final page.  On a parsed response the
loop appends the page's events, adds the batch count to the total, reads
`nextToken` and stops (`ok`) when it is empty, else continues with the
new token.  `fuel` bounds the number of iterations the embedding unrolls
(`none` = fuel exhausted; the script's `while true` has no such bound). -/
def fetchLoop (svc : String → Option Page) :
    Nat → String → List String → Nat → Option FetchOutcome
  | 0, _, _, _ => none
  | fuel + 1, tok, reqs, tot =>
    match svc tok with
    | none => some (.ok (reqs ++ [tok]) tot)
    | some p =>
      if p.nextToken = "" then
        some (.ok (reqs ++ [tok]) (tot + p.events.length))
      else
        fetchLoop svc fuel p.nextToken (reqs ++ [tok]) (tot + p.events.length)

/-- `servesChain svc tok pages` says: starting from request token `tok`,
the service answers with exactly the pages `pages` in order, each
non-final page carrying a nonempty continuation token that keys the next
page, and the final page carrying none. -/
def servesChain (svc : String → Option Page) : String → List Page → Bool
  | _, [] => false
  | tok, [p] => decide (svc tok = some p) && decide (p.nextToken = "")
  | tok, p :: q :: rest =>
    decide (svc tok = some p) && !(decide (p.nextToken = "")) &&
      servesChain svc p.nextToken (q :: rest)

/-- Helper for C1: the loop walks any served chain, issuing the start
token and then each page's continuation token, and totalling the page
sizes. -/
theorem fetchLoop_chain (svc : String → Option Page) :
    ∀ (pages : List Page) (tok : String) (fuel : Nat) (reqs : List String)
      (tot : Nat), servesChain svc tok pages = true → pages.length ≤ fuel →
      fetchLoop svc fuel tok reqs tot =
        some (.ok (reqs ++ tok :: pages.dropLast.map Page.nextToken)
          (tot + (pages.map (fun p => p.events.length)).sum)) := by
  intro pages
  induction pages with
  | nil => intro tok fuel reqs tot hchain _; simp [servesChain] at hchain
  | cons p rest ih =>
    intro tok fuel reqs tot hchain hfuel
    cases fuel with
    | zero => simp at hfuel
    | succ f =>
      cases rest with
      | nil =>
        simp only [servesChain, Bool.and_eq_true, decide_eq_true_eq] at hchain
        obtain ⟨hsvc, htok⟩ := hchain
        simp [fetchLoop, hsvc, htok]
      | cons q rest2 =>
        simp only [servesChain, Bool.and_eq_true, Bool.not_eq_true',
          decide_eq_true_eq, decide_eq_false_iff_not] at hchain
        obtain ⟨⟨hsvc, hne⟩, hrest⟩ := hchain
        have hstep : fetchLoop svc (f + 1) tok reqs tot =
            fetchLoop svc f p.nextToken (reqs ++ [tok])
              (tot + p.events.length) := by
          simp [fetchLoop, hsvc, hne]
        rw [hstep, ih p.nextToken f (reqs ++ [tok]) (tot + p.events.length)
          hrest (by simpa using hfuel)]
        simp [List.dropLast, Nat.add_assoc]

/-- C1: for a service that serves a finite chain of pages (each non-final
page returning a continuation token, the final one none), the fetch loop
started with no token issues exactly one request per page — the first
with no token, each subsequent one carrying the token from the previous
response — and reports a total equal to the sum of the page sizes. -/
theorem pagination_requests_and_total (svc : String → Option Page)
    (pages : List Page) (fuel : Nat)
    (hchain : servesChain svc "" pages = true)
    (hfuel : pages.length ≤ fuel) :
    fetchLoop svc fuel "" [] 0 =
      some (.ok ("" :: pages.dropLast.map Page.nextToken)
        ((pages.map (fun p => p.events.length)).sum)) ∧
    ("" :: pages.dropLast.map Page.nextToken).length = pages.length := by
  constructor
  · simpa using fetchLoop_chain svc pages "" fuel [] 0 hchain hfuel
  · have hne : pages ≠ [] := by
      intro hnil; rw [hnil] at hchain; simp [servesChain] at hchain
    have hpos : 0 < pages.length := List.length_pos.mpr hne
    simp [List.length_dropLast]
    omega

/-- Concrete two-page service: page one (no token) returns events
`e1`, `e2` and continuation token `TOK`; page two (token `TOK`) returns
event `e3` and no token. -/
def svcTwoPages : String → Option Page := fun t =>
  if t = "" then some ⟨["e1", "e2"], "TOK"⟩
  else if t = "TOK" then some ⟨["e3"], ""⟩
  else none

/-- C1 witness: against `svcTwoPages` the loop issues exactly the two
requests `["", "TOK"]` and reports 3 total events. -/
theorem pagination_requests_and_total_witness :
    fetchLoop svcTwoPages 2 "" [] 0 = some (.ok ["", "TOK"] 3) ∧
    (["", "TOK"] : List String).length = 2 := by
  have h := pagination_requests_and_total svcTwoPages
    [⟨["e1", "e2"], "TOK"⟩, ⟨["e3"], ""⟩] 2 (by decide) (by decide)
  exact ⟨by rw [h.1]; decide, by decide⟩

/-- Concrete failing service: the first request (no token) succeeds with
one event and continuation token `TOK`; the second request's aws call
fails (exits non-zero with empty output). -/
def svcFailTok : String → Option Page := fun t =>
  if t = "" then some ⟨["e1"], "TOK"⟩ else none

/-- C8: a failed page fetch is NOT fatal.  Line 182's
`local response=$(eval $cmd 2>/dev/null)` masks the aws exit status, so
the `$?` test on line 184 always sees the `local` builtin's status 0 and
the error/`exit 1` branch (lines 184–188) is unreachable: every
terminating run ends in the success outcome (summary printed, exit
status 0).  Concretely, against `svcFailTok` the failed second fetch is
swallowed as an empty final page: the run reports 1 event and
terminates successfully. -/
theorem fetch_failure_swallowed :
    (∀ (svc : String → Option Page) (fuel : Nat) (tok : String)
      (reqs : List String) (tot : Nat) (o : FetchOutcome),
      fetchLoop svc fuel tok reqs tot = some o →
      ∃ rq t, o = FetchOutcome.ok rq t) ∧
    fetchLoop svcFailTok 5 "" [] 0 = some (.ok ["", "TOK"] 1) := by
  refine ⟨?_, by decide⟩
  intro svc fuel
  induction fuel with
  | zero => intro tok reqs tot o h; simp [fetchLoop] at h
  | succ f ih =>
    intro tok reqs tot o h
    cases hsvc : svc tok with
    | none =>
      simp only [fetchLoop, hsvc, Option.some.injEq] at h
      exact ⟨_, _, h.symm⟩
    | some p =>
      by_cases htok : p.nextToken = ""
      · simp only [fetchLoop, hsvc, if_pos htok, Option.some.injEq] at h
        exact ⟨_, _, h.symm⟩
      · simp only [fetchLoop, hsvc, if_neg htok] at h
        exact ih p.nextToken (reqs ++ [tok]) (tot + p.events.length) o h

/-- C8 witness: the terminating run against `svcFailTok` ends in the
success outcome. -/
theorem fetch_failure_swallowed_witness :
    ∃ rq t, FetchOutcome.ok ["", "TOK"] 1 = FetchOutcome.ok rq t :=
  fetch_failure_swallowed.1 svcFailTok 5 "" [] 0
    (FetchOutcome.ok ["", "TOK"] 1) (by decide)

/-- JSON values, as parsed by jq from an event's raw message string. -/
inductive JVal where
  | null : JVal
  | bool : Bool → JVal
  | num : Int → JVal
  | str : String → JVal
  | arr : List JVal → JVal
  | obj : List (String × JVal) → JVal

/-- Skip JSON whitespace. -/
def skipWs : List Char → List Char
  | [] => []
  | c :: cs =>
    if c = ' ' ∨ c = '\t' ∨ c = '\n' ∨ c = '\r' then skipWs cs else c :: cs

/-- Value of a hex digit. -/
def hexVal (c : Char) : Option Nat :=
  if '0' ≤ c ∧ c ≤ '9' then some (c.toNat - 48)
  else if 'a' ≤ c ∧ c ≤ 'f' then some (c.toNat - 87)
  else if 'A' ≤ c ∧ c ≤ 'F' then some (c.toNat - 55)
  else none

/-- Single-character JSON string escapes. -/
def escChar (e : Char) : Option Char :=
  if e = '"' then some '"'
  else if e = '\\' then some '\\'
  else if e = '/' then some '/'
  else if e = 'n' then some '\n'
  else if e = 't' then some '\t'
  else if e = 'r' then some '\r'
  else if e = 'b' then some (Char.ofNat 8)
  else if e = 'f' then some (Char.ofNat 12)
  else none

/-- Parse the rest of a JSON string (the opening quote already consumed),
returning its characters and the remaining input. -/
def parseStrChars : Nat → List Char → Option (List Char × List Char)
  | 0, _ => none
  | _ + 1, [] => none
  | fuel + 1, c :: cs =>
    if c = '"' then some ([], cs)
    else if c = '\\' then
      match cs with
      | [] => none
      | e :: cs2 =>
        if e = 'u' then
          match cs2 with
          | h1 :: h2 :: h3 :: h4 :: cs3 =>
            match hexVal h1, hexVal h2, hexVal h3, hexVal h4 with
            | some a, some b, some c2, some d2 =>
              (parseStrChars fuel cs3).map
                (fun r =>
                  (Char.ofNat (((a * 16 + b) * 16 + c2) * 16 + d2) :: r.1,
                    r.2))
            | _, _, _, _ => none
          | _ => none
        else
          match escChar e with
          | some ec => (parseStrChars fuel cs2).map (fun r => (ec :: r.1, r.2))
          | none => none
    else
      (parseStrChars fuel cs).map (fun r => (c :: r.1, r.2))

/-- Parse a run of decimal digits into a `Nat`; fails on a following `.`,
`e` or `E` (fractional and exponent number forms are not modelled — no
message handled by the claims contains them). -/
def parseIntRest (cs : List Char) : Option (Nat × List Char) :=
  let ds := cs.takeWhile Char.isDigit
  let rest := cs.dropWhile Char.isDigit
  if ds = [] then none
  else
    match rest with
    | c :: _ =>
      if c = '.' ∨ c = 'e' ∨ c = 'E' then none else some (natOfDigits ds, rest)
    | [] => some (natOfDigits ds, [])

/-- Literal-prefix matcher. -/
def expectLit (lit : List Char) (cs : List Char) : Option (List Char) :=
  if lit.isPrefixOf cs then some (cs.drop lit.length) else none

mutual

/-- Recursive-descent JSON value parser (fuel-bounded). -/
def parseVal : Nat → List Char → Option (JVal × List Char)
  | 0, _ => none
  | fuel + 1, cs0 =>
    match skipWs cs0 with
    | [] => none
    | c :: rest =>
      if c = '"' then
        (parseStrChars (rest.length + 1) rest).map
          (fun r => (JVal.str (String.mk r.1), r.2))
      else if c = lbrace then
        match skipWs rest with
        | [] => none
        | c2 :: r2 =>
          if c2 = rbrace then some (JVal.obj [], r2)
          else
            (parseObjItems fuel (c2 :: r2)).map
              (fun r => (JVal.obj r.1, r.2))
      else if c = '[' then
        match skipWs rest with
        | [] => none
        | c2 :: r2 =>
          if c2 = ']' then some (JVal.arr [], r2)
          else
            (parseArrItems fuel (c2 :: r2)).map
              (fun r => (JVal.arr r.1, r.2))
      else if c = 'n' then
        (expectLit ['u', 'l', 'l'] rest).map (fun r => (JVal.null, r))
      else if c = 't' then
        (expectLit ['r', 'u', 'e'] rest).map (fun r => (JVal.bool true, r))
      else if c = 'f' then
        (expectLit ['a', 'l', 's', 'e'] rest).map
          (fun r => (JVal.bool false, r))
      else if c = '-' then
        (parseIntRest rest).map
          (fun r => (JVal.num (-(r.1 : Int)), r.2))
      else if c.isDigit then
        (parseIntRest (c :: rest)).map (fun r => (JVal.num (r.1 : Int), r.2))
      else none

/-- Comma-separated array items up to the closing bracket. -/
def parseArrItems : Nat → List Char → Option (List JVal × List Char)
  | 0, _ => none
  | fuel + 1, cs =>
    match parseVal fuel cs with
    | none => none
    | some (v, r) =>
      match skipWs r with
      | [] => none
      | c :: r2 =>
        if c = ',' then
          (parseArrItems fuel r2).map (fun t => (v :: t.1, t.2))
        else if c = ']' then some ([v], r2)
        else none

/-- Comma-separated object members up to the closing brace. -/
def parseObjItems : Nat → List Char → Option (List (String × JVal) × List Char)
  | 0, _ => none
  | fuel + 1, cs =>
    match skipWs cs with
    | [] => none
    | c :: rest =>
      if c = '"' then
        match parseStrChars (rest.length + 1) rest with
        | none => none
        | some (k, r) =>
          match skipWs r with
          | [] => none
          | c2 :: r2 =>
            if c2 = ':' then
              match parseVal fuel r2 with
              | none => none
              | some (v, r3) =>
                match skipWs r3 with
                | [] => none
                | c3 :: r4 =>
                  if c3 = ',' then
                    (parseObjItems fuel r4).map
                      (fun t => ((String.mk k, v) :: t.1, t.2))
                  else if c3 = rbrace then some ([(String.mk k, v)], r4)
                  else none
            else none
      else none

end

/-- Parse a whole string as one JSON document (jq errors on malformed
input; its stderr is silenced at the call site, line 108, so a parse
failure surfaces as empty command output — modelled as `none`). -/
def parseJson (s : String) : Option JVal :=
  match parseVal (2 * s.length + 8) s.toList with
  | some (v, rest) => if skipWs rest = [] then some v else none
  | none => none

/-- JSON string escaping as used when a value is re-serialised. -/
def jsonEscape (s : String) : String :=
  String.join (s.toList.map (fun c =>
    if c = '"' then "\\\""
    else if c = '\\' then "\\\\"
    else if c = '\n' then "\\n"
    else if c = '\t' then "\\t"
    else if c = '\r' then "\\r"
    else String.mk [c]))

mutual

/-- Serialise a JSON value (compact form; jq pretty-prints composite
values with indentation, but no claim exercises a composite field value,
only scalars). -/
def encodeJ : JVal → String
  | JVal.null => "null"
  | JVal.bool true => "true"
  | JVal.bool false => "false"
  | JVal.num n => toString n
  | JVal.str s => "\"" ++ jsonEscape s ++ "\""
  | JVal.arr xs => "[" ++ encodeArr xs ++ "]"
  | JVal.obj fs => "\x7b" ++ encodeObj fs ++ "\x7d"

/-- Serialise array elements. -/
def encodeArr : List JVal → String
  | [] => ""
  | [x] => encodeJ x
  | x :: y :: rest => encodeJ x ++ "," ++ encodeArr (y :: rest)

/-- Serialise object members. -/
def encodeObj : List (String × JVal) → String
  | [] => ""
  | [(k, v)] => "\"" ++ jsonEscape k ++ "\":" ++ encodeJ v
  | (k, v) :: y :: rest =>
    "\"" ++ jsonEscape k ++ "\":" ++ encodeJ v ++ "," ++ encodeObj (y :: rest)

end

/-- jq keeps the last binding of a duplicated object key. -/
def lookupLast (fs : List (String × JVal)) (k : String) : Option JVal :=
  ((fs.filter (fun p => p.1 == k)).getLast?).map (fun p => p.2)

/-- The jq path expression `.f`: on an object it yields the member value
(or null when absent), on null it yields null, and on any other value it
is a jq error (`Cannot index ... `), whose output is empty because stderr
is silenced — modelled as `none`. -/
def jqGet (v : JVal) (f : String) : Option JVal :=
  match v with
  | JVal.obj fs => some ((lookupLast fs f).getD JVal.null)
  | JVal.null => some JVal.null
  | _ => none

/-- What `jq -r` prints for one value: strings raw, everything else
serialised. -/
def jqOutputRaw : JVal → String
  | JVal.str s => s
  | v => encodeJ v

/-- Command substitution `$(...)` strips trailing newlines from captured
output. -/
def rstripNewlines (s : String) : String :=
  String.mk ((s.toList.reverse.dropWhile (fun c => c = '\n')).reverse)

/-- Line 108: `extracted=$(echo "$raw" | jq -r ".$field // empty"
2>/dev/null)`.  The `// empty` alternative turns a null or false result
into empty output; a parse failure or an indexing error also leaves the
output empty; the substitution strips trailing newlines. -/
def jqFieldEmpty (raw f : String) : String :=
  match (parseJson raw).bind (fun v => jqGet v f) with
  | none => ""
  | some JVal.null => ""
  | some (JVal.bool false) => ""
  | some u => rstripNewlines (jqOutputRaw u)

/-- Split a character list at newlines. -/
def splitLines (cs : List Char) : List (List Char) :=
  match cs with
  | [] => [[]]
  | c :: rest =>
    let r := splitLines rest
    if c = '\n' then [] :: r
    else
      match r with
      | [] => [[c]]
      | h :: t => (c :: h) :: t

/-- Re-join lines with newlines. -/
def joinLines : List (List Char) → List Char
  | [] => []
  | [l] => l
  | l :: l2 :: rest => l ++ '\n' :: joinLines (l2 :: rest)

/-- Line 115: `echo "$raw" | cut -c1-120` — truncate every line of the
raw string to its first `n` characters, appending nothing. -/
def truncLines (n : Nat) (raw : String) : String :=
  String.mk (joinLines ((splitLines raw.toList).map (fun l => l.take n)))

/-- Line 104: the bash regex match `[[ "$raw" =~ ^\{.*\}$ ]]` — the raw
string (no trimming is applied) starts with a left brace and ends with a
right brace, with at least two characters. -/
def isObjLike (raw : String) : Bool :=
  let l := raw.toList
  decide (2 ≤ l.length) && l.head? == some lbrace && l.getLast? == some rbrace

/-- Lines 107–113: try the fields `log`, `message`, `msg` in order,
returning the first nonempty extraction; fall back to per-line 120-char
truncation. -/
def tryFields (raw : String) : List String → String
  | [] => truncLines 120 raw
  | f :: rest =>
    let extracted := jqFieldEmpty raw f
    if extracted = "" then tryFields raw rest else extracted

/-- Lines 101–119: `extract_message`. -/
def extract_message (raw : String) : String :=
  if isObjLike raw then tryFields raw ["log", "message", "msg"] else raw

/-- The spec's structured example: a JSON object whose `log` field is
`hello world` followed by an escaped newline. -/
def exLog : String := "\x7b\"log\":\"hello world\\n\"\x7d"

/-- A 137-character JSON object with no recognized field. -/
def exLong : String :=
  "\x7b\"other\":\"" ++ String.mk (List.replicate 125 'x') ++ "\"\x7d"

/-- An object-shaped string surrounded by whitespace. -/
def exSpaced : String := " \x7b\"log\":\"hello\"\x7d "

/-- An object whose `log` field is the empty string and whose `message`
field is `x`. -/
def exEmptyLog : String := "\x7b\"log\":\"\",\"message\":\"x\"\x7d"

set_option maxRecDepth 40000 in
/-- C4 (amended): message extraction.  If the raw string does not start
with a left brace and end with a right brace (no whitespace trimming is
performed), it is returned unchanged.  Otherwise the fields `log`,
`message`, `msg` are tried in priority order and the first nonempty
extraction (trailing newlines stripped) is returned; if parsing fails or
every extraction is empty, the raw string is returned with each line
truncated to 120 characters and no ellipsis marker appended. -/
theorem extract_message_corrected :
    (∀ raw : String, isObjLike raw = false → extract_message raw = raw) ∧
    (∀ raw : String, isObjLike raw = true → parseJson raw = none →
      extract_message raw = truncLines 120 raw) ∧
    (∀ raw : String, isObjLike raw = true → jqFieldEmpty raw "log" = "" →
      jqFieldEmpty raw "message" = "" → jqFieldEmpty raw "msg" = "" →
      extract_message raw = truncLines 120 raw) ∧
    (∀ raw s : String, isObjLike raw = true → jqFieldEmpty raw "log" = s →
      s ≠ "" → extract_message raw = s) ∧
    (∀ raw s : String, isObjLike raw = true → jqFieldEmpty raw "log" = "" →
      jqFieldEmpty raw "message" = s → s ≠ "" → extract_message raw = s) ∧
    (∀ raw s : String, isObjLike raw = true → jqFieldEmpty raw "log" = "" →
      jqFieldEmpty raw "message" = "" → jqFieldEmpty raw "msg" = s →
      s ≠ "" → extract_message raw = s) ∧
    extract_message exLog = "hello world" ∧
    extract_message "plain text line" = "plain text line" ∧
    extract_message exLong = truncLines 120 exLong ∧
    120 < exLong.length ∧ (extract_message exLong).length = 120 := by
  refine ⟨?_, ?_, ?_, ?_, ?_, ?_, by decide, by decide, by decide,
    by decide, by decide⟩
  · intro raw h
    simp [extract_message, h]
  · intro raw hobj hp
    simp [extract_message, hobj, tryFields, jqFieldEmpty, hp]
  · intro raw hobj h1 h2 h3
    simp [extract_message, hobj, tryFields, h1, h2, h3]
  · intro raw s hobj hs hne
    simp [extract_message, hobj, tryFields, hs, hne]
  · intro raw s hobj h1 hs hne
    simp [extract_message, hobj, tryFields, h1, hs, hne]
  · intro raw s hobj h1 h2 hs hne
    simp [extract_message, hobj, tryFields, h1, h2, hs, hne]

/-- C4 witness: a plain string is not object-shaped and is returned
unchanged. -/
theorem extract_message_corrected_witness :
    isObjLike "not an object" = false ∧
    extract_message "not an object" = "not an object" :=
  ⟨by decide, extract_message_corrected.1 "not an object" (by decide)⟩

set_option maxRecDepth 40000 in
/-- C4 counterexample: (a) a message that is object-shaped only after
trimming is returned unchanged — no whitespace trimming happens, so the
claim's `hello` is not extracted; (b) the over-long fallback is exactly
the first 120 characters with nothing appended — its last character is
still `x`, no ellipsis marker. -/
theorem extract_message_claim_counterexample :
    extract_message exSpaced = exSpaced ∧
    extract_message exSpaced ≠ "hello" ∧
    extract_message exLong = String.mk (exLong.toList.take 120) ∧
    (extract_message exLong).length = 120 ∧
    120 < exLong.length ∧
    (extract_message exLong).toList.getLast? = some 'x' := by
  decide

/-- C10: a field present in the parsed object whose value is null, false
or the empty string yields an empty extraction, so the loop falls through
to the next field in priority order (or, after all three, to the
truncated fallback); in particular `exEmptyLog` extracts to `x`. -/
theorem empty_fields_skipped :
    (∀ (raw f : String) (rest : List String), jqFieldEmpty raw f = "" →
      tryFields raw (f :: rest) = tryFields raw rest) ∧
    (∀ (raw f : String) (v : JVal), parseJson raw = some v →
      (jqGet v f = some JVal.null ∨ jqGet v f = some (JVal.bool false) ∨
        jqGet v f = some (JVal.str "")) →
      jqFieldEmpty raw f = "") ∧
    extract_message exEmptyLog = "x" := by
  refine ⟨?_, ?_, by decide⟩
  · intro raw f rest h
    simp [tryFields, h]
  · intro raw f v hp hv
    rcases hv with hv | hv | hv
    · simp only [jqFieldEmpty, hp, Option.some_bind, hv]
    · simp only [jqFieldEmpty, hp, Option.some_bind, hv]
    · simp only [jqFieldEmpty, hp, Option.some_bind, hv]
      decide

/-- C10 witness: the empty-string `log` field of `exEmptyLog` yields an
empty extraction. -/
theorem empty_fields_skipped_witness :
    jqFieldEmpty exEmptyLog "log" = "" :=
  empty_fields_skipped.2.1 exEmptyLog "log"
    (JVal.obj [("log", JVal.str ""), ("message", JVal.str "x")]) rfl
    (Or.inr (Or.inr rfl))

end Runbook
